import Mathlib

/-!
Verification development for the AI-market analysis pipeline
(`backend/analysis.py`).

The pipeline loads a CSV of `(Year, MarketSize, AdoptionRate)` records,
fits two independent ordinary-least-squares lines (market size and
adoption rate against year), extrapolates five years past a fixed base
year 2024, and writes a combined historical/predicted table (CSV) plus a
JSON report.

Shallow embedding choices:
* Numeric values are `ℚ` (the Python code computes over floats; the spec
  states its numeric properties up to tolerance, and the exact-arithmetic
  model is the mathematical content of the code).
* `sklearn.linear_model.LinearRegression` on the single feature `Year`
  with an intercept is ordinary least squares; it is embedded by the OLS
  closed form (`fitOLS`).  Note that with all years equal the closed form
  with Lean's `x / 0 = 0` gives slope `0` and intercept `ȳ`, matching the
  minimum-norm solution sklearn's centered solver returns.
* `sklearn.metrics.r2_score` is embedded by its defining formula
  `1 - Σ(y-ŷ)² / Σ(y-ȳ)²`.
* Pandas dataframes are embedded as Lean lists of records; the written
  CSV is modelled at the level of its rows (a row of optional cells plus
  the `Type` tag, and the header line as a string); CSV write/read is the
  identity on that row representation.
* The filesystem read in `load_data` is modelled by an
  `Option (List MarketRecord)` input: `none` is the `FileNotFoundError`
  case.  Printing is modelled by accumulating the printed messages.
-/

/-- One historical observation, a row of `data/ai_market.csv`
(`Year,MarketSize,AdoptionRate`). -/
structure MarketRecord where
  year : ℤ
  marketSize : ℚ
  adoptionRate : ℚ
deriving DecidableEq, Repr

/-- A fitted line: `slope * year + intercept`.  Embeds a fitted
`LinearRegression` object (its `coef_[0]` and `intercept_`). -/
structure TrendModel where
  slope : ℚ
  intercept : ℚ
deriving DecidableEq, Repr

/-- `model.predict([[x]])` for a single-feature linear model. -/
def predictAt (m : TrendModel) (x : ℚ) : ℚ := m.slope * x + m.intercept

/-- Sum of `x` coordinates of a point list. -/
def sumX (l : List (ℚ × ℚ)) : ℚ := (l.map Prod.fst).sum

/-- Sum of `y` coordinates of a point list. -/
def sumY (l : List (ℚ × ℚ)) : ℚ := (l.map Prod.snd).sum

/-- Sum of squared `x` coordinates of a point list. -/
def sumXX (l : List (ℚ × ℚ)) : ℚ := (l.map (fun p => p.1 * p.1)).sum

/-- Sum of `x*y` products of a point list. -/
def sumXY (l : List (ℚ × ℚ)) : ℚ := (l.map (fun p => p.1 * p.2)).sum

/-- Ordinary least squares for one feature with intercept: the closed
form of what `LinearRegression().fit(X, y)` computes on the pairs
`(year, value)`. -/
def fitOLS (l : List (ℚ × ℚ)) : TrendModel :=
  let n : ℚ := l.length
  let slope := (n * sumXY l - sumX l * sumY l) / (n * sumXX l - sumX l * sumX l)
  { slope := slope, intercept := (sumY l - slope * sumX l) / n }

/-- `sklearn.metrics.r2_score`: `1 - Σ(y-ŷ)² / Σ(y-ȳ)²` over paired
observed/fitted values. -/
def r2_score (yTrue yPred : List ℚ) : ℚ :=
  let ybar := yTrue.sum / (yTrue.length : ℚ)
  1 - ((yTrue.zip yPred).map (fun p => (p.1 - p.2) ^ 2)).sum /
      ((yTrue.map (fun y => (y - ybar) ^ 2)).sum)

/-- The `(year, marketSize)` pairs `perform_regression` feeds the market
model. -/
def marketPoints (df : List MarketRecord) : List (ℚ × ℚ) :=
  df.map (fun r => ((r.year : ℚ), r.marketSize))

/-- The `(year, adoptionRate)` pairs `perform_regression` feeds the
adoption model. -/
def adoptionPoints (df : List MarketRecord) : List (ℚ × ℚ) :=
  df.map (fun r => ((r.year : ℚ), r.adoptionRate))

/-- `perform_regression`: fit both models on all rows and score each
in-sample with `r2_score`.  Returns
`(model_market, model_adoption, market_r2, adoption_r2)`. -/
def perform_regression (df : List MarketRecord) :
    TrendModel × TrendModel × ℚ × ℚ :=
  let model_market := fitOLS (marketPoints df)
  let model_adoption := fitOLS (adoptionPoints df)
  let market_r2 := r2_score (df.map (·.marketSize))
    (df.map (fun r => predictAt model_market (r.year : ℚ)))
  let adoption_r2 := r2_score (df.map (·.adoptionRate))
    (df.map (fun r => predictAt model_adoption (r.year : ℚ)))
  (model_market, model_adoption, market_r2, adoption_r2)

/-- One row of the predictions dataframe
(`Year, PredictedMarketSize, PredictedAdoptionRate`). -/
structure ForecastRecord where
  year : ℤ
  predictedMarketSize : ℚ
  predictedAdoptionRate : ℚ
deriving DecidableEq, Repr

/-- `generate_future_predictions`: evaluate both fitted lines at
`base_year + i` for `i = 1 .. years_ahead` (the Python
`range(1, years_ahead + 1)` is re-indexed as `i = 0 .. years_ahead - 1`
with year `base_year + 1 + i`). -/
def generate_future_predictions (model_market model_adoption : TrendModel)
    (base_year : ℤ) (years_ahead : ℕ) : List ForecastRecord :=
  (List.range years_ahead).map (fun (i : ℕ) =>
    let y : ℤ := base_year + 1 + (i : ℤ)
    { year := y
      predictedMarketSize := predictAt model_market (y : ℚ)
      predictedAdoptionRate := predictAt model_adoption (y : ℚ) })

/-- One row of the combined dataframe written to
`data/ai_analysis_results.csv`; `none` cells are written empty. -/
structure CombinedRow where
  year : ℤ
  marketSize : Option ℚ
  adoptionRate : Option ℚ
  predictedMarketSize : Option ℚ
  predictedAdoptionRate : Option ℚ
  type : String
deriving DecidableEq, Repr

/-- The header line `to_csv` writes for the combined dataframe. -/
def csvHeader : String :=
  "Year,MarketSize,AdoptionRate,PredictedMarketSize,PredictedAdoptionRate,Type"

/-- The historical slice of the combined dataframe: raw values
populated, predicted cells `None`, tag `Historical`. -/
def historicalRows (df_original : List MarketRecord) : List CombinedRow :=
  df_original.map (fun r =>
    { year := r.year, marketSize := some r.marketSize
      adoptionRate := some r.adoptionRate, predictedMarketSize := none
      predictedAdoptionRate := none, type := "Historical" })

/-- The predicted slice of the combined dataframe: raw cells `None`,
predicted values populated, tag `Predicted`. -/
def predictedRows (df_predictions : List ForecastRecord) : List CombinedRow :=
  df_predictions.map (fun p =>
    { year := p.year, marketSize := none, adoptionRate := none
      predictedMarketSize := some p.predictedMarketSize
      predictedAdoptionRate := some p.predictedAdoptionRate
      type := "Predicted" })

/-- The combined dataframe built in `save_results`: the original rows
followed by the prediction rows. -/
def combinedRows (df_original : List MarketRecord)
    (df_predictions : List ForecastRecord) : List CombinedRow :=
  historicalRows df_original ++ predictedRows df_predictions

/-- `round(x, d)` on exact rationals. -/
def roundTo (d : ℕ) (x : ℚ) : ℚ := (round (x * 10 ^ d) : ℤ) / 10 ^ d

/-- Entry of the JSON `historical_data` array. -/
structure HistEntry where
  year : ℤ
  market_size : ℚ
  adoption_rate : ℚ
deriving DecidableEq, Repr

/-- Entry of the JSON `predictions` array (values rounded to 2
decimals). -/
structure PredEntry where
  year : ℤ
  predicted_market_size : ℚ
  predicted_adoption_rate : ℚ
deriving DecidableEq, Repr

/-- The JSON report written to `data/ai_analysis_results.json`. -/
structure AnalysisReport where
  market_r2_score : ℚ
  adoption_r2_score : ℚ
  historical_data : List HistEntry
  predictions : List PredEntry
deriving DecidableEq, Repr

/-- `save_results`: the combined CSV rows and the JSON report. -/
def save_results (df_original : List MarketRecord)
    (df_predictions : List ForecastRecord) (market_r2 adoption_r2 : ℚ) :
    List CombinedRow × AnalysisReport :=
  (combinedRows df_original df_predictions,
   { market_r2_score := roundTo 4 market_r2
     adoption_r2_score := roundTo 4 adoption_r2
     historical_data := df_original.map (fun r =>
       { year := r.year, market_size := r.marketSize
         adoption_rate := r.adoptionRate })
     predictions := df_predictions.map (fun p =>
       { year := p.year
         predicted_market_size := roundTo 2 p.predictedMarketSize
         predicted_adoption_rate := roundTo 2 p.predictedAdoptionRate }) })

/-- `load_data`: reads `data/ai_market.csv` when present; on
`FileNotFoundError` prints the error line and returns `None`.  The
filesystem is modelled by the optional parsed contents of that file. -/
def load_data (input : Option (List MarketRecord)) :
    Option (List MarketRecord) × List String :=
  match input with
  | some df => (some df, ["Loaded records from data/ai_market.csv"])
  | none => (none, ["Error: ai_market.csv not found in data/ directory"])

/-- Everything the pipeline run leaves behind: the printed lines and the
two output files (`none` when no file was written). -/
structure PipelineOutput where
  messages : List String
  csvFile : Option (List CombinedRow)
  jsonFile : Option AnalysisReport
deriving Repr

/-- `main`: load, fit, forecast with the hardcoded
`base_year = 2024, years_ahead = 5`, save; on a failed load, report and
return without writing any file. -/
def mainPipeline (input : Option (List MarketRecord)) : PipelineOutput :=
  let start := "=== AI Market Analysis Started ==="
  match load_data input with
  | (none, msgs) =>
      { messages := start :: msgs, csvFile := none, jsonFile := none }
  | (some df, msgs) =>
      let reg := perform_regression df
      let predictions_df :=
        generate_future_predictions reg.1 reg.2.1 2024 5
      let results := save_results df predictions_df reg.2.2.1 reg.2.2.2
      { messages := start :: msgs ++ ["=== Analysis Complete ==="]
        csvFile := some results.1
        jsonFile := some results.2 }

/-- The forecast rows `main` produces for a loaded dataset `df`. -/
def pipelinePredictions (df : List MarketRecord) : List ForecastRecord :=
  generate_future_predictions (perform_regression df).1
    (perform_regression df).2.1 2024 5

/-! ### Helper lemmas about the OLS fit -/

@[simp] lemma sumX_nil : sumX [] = 0 := rfl

@[simp] lemma sumY_nil : sumY [] = 0 := rfl

@[simp] lemma sumXX_nil : sumXX [] = 0 := rfl

@[simp] lemma sumXY_nil : sumXY [] = 0 := rfl

@[simp] lemma sumX_cons (a : ℚ × ℚ) (t : List (ℚ × ℚ)) :
    sumX (a :: t) = a.1 + sumX t := by simp [sumX]

@[simp] lemma sumY_cons (a : ℚ × ℚ) (t : List (ℚ × ℚ)) :
    sumY (a :: t) = a.2 + sumY t := by simp [sumY]

@[simp] lemma sumXX_cons (a : ℚ × ℚ) (t : List (ℚ × ℚ)) :
    sumXX (a :: t) = a.1 * a.1 + sumXX t := by simp [sumXX]

@[simp] lemma sumXY_cons (a : ℚ × ℚ) (t : List (ℚ × ℚ)) :
    sumXY (a :: t) = a.1 * a.2 + sumXY t := by simp [sumXY]

/-- Sum of residuals against an arbitrary line, in closed form. -/
lemma sum_sub_line (l : List (ℚ × ℚ)) (s c : ℚ) :
    (l.map (fun p => p.2 - (s * p.1 + c))).sum
      = sumY l - s * sumX l - (l.length : ℚ) * c := by
  induction l with
  | nil => simp
  | cons a t ih =>
      simp only [List.map_cons, List.sum_cons, ih, sumY_cons, sumX_cons,
        List.length_cons]
      push_cast
      ring

/-- Sum of year-weighted residuals against an arbitrary line, in closed
form. -/
lemma sum_x_sub_line (l : List (ℚ × ℚ)) (s c : ℚ) :
    (l.map (fun p => p.1 * (p.2 - (s * p.1 + c)))).sum
      = sumXY l - s * sumXX l - c * sumX l := by
  induction l with
  | nil => simp
  | cons a t ih =>
      simp only [List.map_cons, List.sum_cons, ih, sumXY_cons, sumXX_cons,
        sumX_cons]
      ring

/-- Shifting a sum of squares by a constant, in closed form. -/
lemma sum_sq_shift (xs : List ℚ) (c : ℚ) :
    (xs.map (fun x => (x - c) ^ 2)).sum
      = (xs.map (fun x => x * x)).sum - 2 * c * xs.sum
        + (xs.length : ℚ) * c ^ 2 := by
  induction xs with
  | nil => simp
  | cons a t ih =>
      simp only [List.map_cons, List.sum_cons, ih, List.length_cons]
      push_cast
      ring

/-- Cauchy–Schwarz-type strict inequality: a list with two distinct
entries has positive `n·Σx² − (Σx)²`. -/
lemma sq_sum_lt (xs : List ℚ) (a b : ℚ) (ha : a ∈ xs) (hb : b ∈ xs)
    (hab : a ≠ b) :
    0 < (xs.length : ℚ) * (xs.map (fun x => x * x)).sum - xs.sum * xs.sum := by
  have hn : (0 : ℚ) < xs.length := by
    have hne : xs ≠ [] := by rintro rfl; simp at ha
    exact_mod_cast List.length_pos.mpr hne
  have hnne : ((xs.length : ℚ)) ≠ 0 := ne_of_gt hn
  set c : ℚ := xs.sum / xs.length with hc
  have hterm : ∀ y ∈ xs.map (fun x => (x - c) ^ 2), 0 ≤ y := by
    intro y hy
    obtain ⟨x, _, rfl⟩ := List.mem_map.mp hy
    positivity
  have hpos : 0 < (xs.map (fun x => (x - c) ^ 2)).sum := by
    rcases eq_or_ne a c with h | h
    · have hbc : b - c ≠ 0 := by
        intro h0
        exact hab (by rw [h]; linarith [sub_eq_zero.mp h0])
      have hmem : (b - c) ^ 2 ∈ xs.map (fun x => (x - c) ^ 2) :=
        List.mem_map_of_mem _ hb
      exact lt_of_lt_of_le (pow_two_pos_of_ne_zero hbc)
        (List.single_le_sum hterm _ hmem)
    · have hac : a - c ≠ 0 := sub_ne_zero.mpr h
      have hmem : (a - c) ^ 2 ∈ xs.map (fun x => (x - c) ^ 2) :=
        List.mem_map_of_mem _ ha
      exact lt_of_lt_of_le (pow_two_pos_of_ne_zero hac)
        (List.single_le_sum hterm _ hmem)
  have key : (xs.length : ℚ) * (xs.map (fun x => x * x)).sum - xs.sum * xs.sum
      = (xs.length : ℚ) * (xs.map (fun x => (x - c) ^ 2)).sum := by
    rw [sum_sq_shift, hc]
    field_simp
    ring
  rw [key]
  exact mul_pos hn hpos

lemma fitOLS_slope (l : List (ℚ × ℚ)) :
    (fitOLS l).slope
      = ((l.length : ℚ) * sumXY l - sumX l * sumY l)
        / ((l.length : ℚ) * sumXX l - sumX l * sumX l) := rfl

lemma fitOLS_intercept (l : List (ℚ × ℚ)) :
    (fitOLS l).intercept
      = (sumY l - (fitOLS l).slope * sumX l) / (l.length : ℚ) := rfl

/-- The OLS denominator is nonzero as soon as two abscissae differ. -/
lemma fitOLS_den_pos (l : List (ℚ × ℚ)) (p q : ℚ × ℚ) (hp : p ∈ l)
    (hq : q ∈ l) (hpq : p.1 ≠ q.1) :
    0 < (l.length : ℚ) * sumXX l - sumX l * sumX l := by
  have hxx : sumXX l = ((l.map Prod.fst).map (fun x => x * x)).sum := by
    simp [sumXX, List.map_map]
    rfl
  have h2 := sq_sum_lt (l.map Prod.fst) p.1 q.1
    (List.mem_map_of_mem _ hp) (List.mem_map_of_mem _ hq) hpq
  simpa [hxx, sumX] using h2

/-- Both OLS normal equations hold for the closed-form fit whenever two
abscissae differ. -/
lemma fitOLS_normal_eq (l : List (ℚ × ℚ))
    (h : ∃ p ∈ l, ∃ q ∈ l, p.1 ≠ q.1) :
    (l.map (fun p => p.2 - predictAt (fitOLS l) p.1)).sum = 0 ∧
    (l.map (fun p => p.1 * (p.2 - predictAt (fitOLS l) p.1))).sum = 0 := by
  obtain ⟨p, hp, q, hq, hpq⟩ := h
  have hn : (0 : ℚ) < l.length := by
    have hne : l ≠ [] := by rintro rfl; simp at hp
    exact_mod_cast List.length_pos.mpr hne
  have hnne : ((l.length : ℚ)) ≠ 0 := ne_of_gt hn
  have hden := fitOLS_den_pos l p q hp hq hpq
  have hdne : ((l.length : ℚ) * sumXX l - sumX l * sumX l) ≠ 0 :=
    ne_of_gt hden
  have hmap : (l.map (fun p => p.2 - predictAt (fitOLS l) p.1))
      = l.map (fun p => p.2 - ((fitOLS l).slope * p.1 + (fitOLS l).intercept)) := by
    simp [predictAt]
  have hmap2 : (l.map (fun p => p.1 * (p.2 - predictAt (fitOLS l) p.1)))
      = l.map (fun p =>
          p.1 * (p.2 - ((fitOLS l).slope * p.1 + (fitOLS l).intercept))) := by
    simp [predictAt]
  constructor
  · rw [hmap, sum_sub_line, fitOLS_intercept]
    field_simp
  · rw [hmap2, sum_x_sub_line, fitOLS_intercept, fitOLS_slope]
    field_simp
    ring

/-- `Σy` over points lying on a line, in closed form. -/
lemma sum_y_of_line (l : List (ℚ × ℚ)) (m b : ℚ)
    (h : ∀ p ∈ l, p.2 = m * p.1 + b) :
    sumY l = m * sumX l + (l.length : ℚ) * b := by
  induction l with
  | nil => simp
  | cons a t ih =>
      have ha := h a (List.mem_cons_self a t)
      have ht : ∀ p ∈ t, p.2 = m * p.1 + b := fun p hp =>
        h p (List.mem_cons_of_mem a hp)
      simp only [sumY_cons, sumX_cons, List.length_cons, ih ht, ha]
      push_cast
      ring

/-- `Σxy` over points lying on a line, in closed form. -/
lemma sum_xy_of_line (l : List (ℚ × ℚ)) (m b : ℚ)
    (h : ∀ p ∈ l, p.2 = m * p.1 + b) :
    sumXY l = m * sumXX l + b * sumX l := by
  induction l with
  | nil => simp
  | cons a t ih =>
      have ha := h a (List.mem_cons_self a t)
      have ht : ∀ p ∈ t, p.2 = m * p.1 + b := fun p hp =>
        h p (List.mem_cons_of_mem a hp)
      simp only [sumXY_cons, sumXX_cons, sumX_cons, ih ht, ha]
      ring

/-- On data lying exactly on a line with two distinct abscissae, the OLS
fit recovers that line exactly. -/
lemma fitOLS_line (l : List (ℚ × ℚ)) (m b : ℚ)
    (hline : ∀ p ∈ l, p.2 = m * p.1 + b)
    (h : ∃ p ∈ l, ∃ q ∈ l, p.1 ≠ q.1) :
    fitOLS l = ⟨m, b⟩ := by
  obtain ⟨p, hp, q, hq, hpq⟩ := h
  have hn : (0 : ℚ) < l.length := by
    have hne : l ≠ [] := by rintro rfl; simp at hp
    exact_mod_cast List.length_pos.mpr hne
  have hnne : ((l.length : ℚ)) ≠ 0 := ne_of_gt hn
  have hdne : ((l.length : ℚ) * sumXX l - sumX l * sumX l) ≠ 0 :=
    ne_of_gt (fitOLS_den_pos l p q hp hq hpq)
  have hs : (fitOLS l).slope = m := by
    rw [fitOLS_slope, sum_xy_of_line l m b hline, sum_y_of_line l m b hline]
    field_simp
    ring
  have hi : (fitOLS l).intercept = b := by
    rw [fitOLS_intercept, hs, sum_y_of_line l m b hline]
    field_simp
  have hmk : fitOLS l = ⟨(fitOLS l).slope, (fitOLS l).intercept⟩ := rfl
  rw [hmk, hs, hi]

/-- `r2_score` of a perfect prediction is exactly 1. -/
lemma r2_score_self (y : List ℚ) : r2_score y y = 1 := by
  have hz : y.zip y = y.map (fun a => (a, a)) := by
    simpa using List.zip_map' (id : ℚ → ℚ) (id : ℚ → ℚ) y
  have h0 : ((y.zip y).map (fun p => (p.1 - p.2) ^ 2)).sum = 0 := by
    apply List.sum_eq_zero
    intro x hx
    rw [hz, List.map_map] at hx
    obtain ⟨a, _, rfl⟩ := List.mem_map.mp hx
    simp
  simp [r2_score, h0]


/-! ### Helper lemmas about the pipeline plumbing -/

lemma perform_regression_market (df : List MarketRecord) :
    (perform_regression df).1 = fitOLS (marketPoints df) := rfl

lemma perform_regression_adoption (df : List MarketRecord) :
    (perform_regression df).2.1 = fitOLS (adoptionPoints df) := rfl

lemma perform_regression_market_r2 (df : List MarketRecord) :
    (perform_regression df).2.2.1
      = r2_score (df.map (·.marketSize))
          (df.map (fun r => predictAt (fitOLS (marketPoints df)) (r.year : ℚ))) :=
  rfl

lemma perform_regression_adoption_r2 (df : List MarketRecord) :
    (perform_regression df).2.2.2
      = r2_score (df.map (·.adoptionRate))
          (df.map (fun r => predictAt (fitOLS (adoptionPoints df)) (r.year : ℚ))) :=
  rfl

@[simp] lemma generate_future_predictions_length (mm ma : TrendModel)
    (A : ℤ) (N : ℕ) : (generate_future_predictions mm ma A N).length = N := by
  unfold generate_future_predictions
  rw [List.length_map, List.length_range]

@[simp] lemma historicalRows_length (df : List MarketRecord) :
    (historicalRows df).length = df.length := by simp [historicalRows]

@[simp] lemma predictedRows_length (preds : List ForecastRecord) :
    (predictedRows preds).length = preds.length := by simp [predictedRows]

/-- Years of the forecast rows, in closed form. -/
lemma generate_future_predictions_years (mm ma : TrendModel) (A : ℤ) (N : ℕ) :
    (generate_future_predictions mm ma A N).map ForecastRecord.year
      = (List.range N).map (fun (i : ℕ) => A + 1 + (i : ℤ)) := by
  simp [generate_future_predictions, List.map_map]

/-- The forecast years are pairwise strictly increasing. -/
lemma generate_future_predictions_years_pairwise (mm ma : TrendModel)
    (A : ℤ) (N : ℕ) :
    ((generate_future_predictions mm ma A N).map ForecastRecord.year).Pairwise
      (· < ·) := by
  rw [generate_future_predictions_years]
  exact List.Pairwise.map (fun (i : ℕ) => A + 1 + (i : ℤ))
    (fun a b (hab : a < b) => by
      show A + 1 + (a : ℤ) < A + 1 + (b : ℤ)
      omega)
    (List.pairwise_lt_range N)

/-! ### Claims -/

/-- **C2.** For every fitted model pair, anchor year `A` and horizon
`N ≥ 1`, `generate_future_predictions` produces exactly `N` records whose
years are `A+1, …, A+N` in order (strictly increasing and contiguous,
starting at `A+1`), and each predicted value is `slope*year + intercept`
of the corresponding fitted model at that year. -/
theorem C2_forecaster_contract (mm ma : TrendModel) (A : ℤ) (N : ℕ)
    (hN : 1 ≤ N) :
    (generate_future_predictions mm ma A N).length = N ∧
    (generate_future_predictions mm ma A N).map ForecastRecord.year
      = (List.range N).map (fun (i : ℕ) => A + 1 + (i : ℤ)) ∧
    ((generate_future_predictions mm ma A N).map ForecastRecord.year).Pairwise
      (· < ·) ∧
    ∀ p ∈ generate_future_predictions mm ma A N,
      p.predictedMarketSize = mm.slope * (p.year : ℚ) + mm.intercept ∧
      p.predictedAdoptionRate = ma.slope * (p.year : ℚ) + ma.intercept := by
  refine ⟨by simp, generate_future_predictions_years mm ma A N,
    generate_future_predictions_years_pairwise mm ma A N, ?_⟩
  · intro p hp
    obtain ⟨i, _, rfl⟩ := List.mem_map.mp hp
    exact ⟨rfl, rfl⟩

/-- Witness for C2 at a concrete model pair, anchor 2000 and horizon 2. -/
theorem C2_forecaster_contract_witness :
    1 ≤ 2 ∧ (generate_future_predictions ⟨2, 3⟩ ⟨5, 7⟩ 2000 2).length = 2 :=
  ⟨by norm_num, (C2_forecaster_contract ⟨2, 3⟩ ⟨5, 7⟩ 2000 2 (by norm_num)).1⟩

/-- **C5.** With the input CSV absent, the pipeline prints the
"file not found" error line, returns early, and writes neither the
output CSV nor the output JSON. -/
theorem C5_missing_input_file :
    (mainPipeline none).csvFile = none ∧
    (mainPipeline none).jsonFile = none ∧
    "Error: ai_market.csv not found in data/ directory"
      ∈ (mainPipeline none).messages := by
  refine ⟨rfl, rfl, ?_⟩
  simp [mainPipeline, load_data]

/-- **C9.** The forecaster is a deterministic pure function of its
arguments: two invocations with identical fitted models, anchor year and
horizon produce identical outputs. -/
theorem C9_forecaster_deterministic (mm₁ mm₂ ma₁ ma₂ : TrendModel)
    (A₁ A₂ : ℤ) (N₁ N₂ : ℕ) (hm : mm₁ = mm₂) (ha : ma₁ = ma₂)
    (hA : A₁ = A₂) (hN : N₁ = N₂) :
    generate_future_predictions mm₁ ma₁ A₁ N₁
      = generate_future_predictions mm₂ ma₂ A₂ N₂ := by
  rw [hm, ha, hA, hN]

/-- Witness for C9 at a concrete model pair and the pipeline's fixed
anchor 2024 and horizon 5. -/
theorem C9_forecaster_deterministic_witness :
    generate_future_predictions ⟨1, 2⟩ ⟨3, 4⟩ 2024 5
      = generate_future_predictions ⟨1, 2⟩ ⟨3, 4⟩ 2024 5 :=
  C9_forecaster_deterministic ⟨1, 2⟩ ⟨1, 2⟩ ⟨3, 4⟩ ⟨3, 4⟩ 2024 2024 5 5
    rfl rfl rfl rfl

/-- A two-row sample dataset used to instantiate hypotheses. -/
def sampleTwo : List MarketRecord := [⟨2020, 100, 10⟩, ⟨2021, 150, 15⟩]

/-- **C3.** For every dataset with at least two distinct years, the
fitted slope and intercept of both models satisfy the OLS normal
equations: the sum of residuals and the sum of year-weighted residuals
vanish, for the market-size target and the adoption-rate target (in the
exact-arithmetic model the tolerance is 0). -/
theorem C3_normal_equations (df : List MarketRecord)
    (h : ∃ r ∈ df, ∃ s ∈ df, r.year ≠ s.year) :
    ((df.map (fun r => r.marketSize
        - predictAt (perform_regression df).1 (r.year : ℚ))).sum = 0 ∧
     (df.map (fun r => (r.year : ℚ) * (r.marketSize
        - predictAt (perform_regression df).1 (r.year : ℚ)))).sum = 0) ∧
    ((df.map (fun r => r.adoptionRate
        - predictAt (perform_regression df).2.1 (r.year : ℚ))).sum = 0 ∧
     (df.map (fun r => (r.year : ℚ) * (r.adoptionRate
        - predictAt (perform_regression df).2.1 (r.year : ℚ)))).sum = 0) := by
  obtain ⟨r, hr, s, hs, hrs⟩ := h
  have hrs' : ((r.year : ℚ)) ≠ ((s.year : ℚ)) := by exact_mod_cast hrs
  have hrm : ((r.year : ℚ), r.marketSize) ∈ marketPoints df := by
    simp only [marketPoints]
    exact List.mem_map_of_mem _ hr
  have hsm : ((s.year : ℚ), s.marketSize) ∈ marketPoints df := by
    simp only [marketPoints]
    exact List.mem_map_of_mem _ hs
  have hra : ((r.year : ℚ), r.adoptionRate) ∈ adoptionPoints df := by
    simp only [adoptionPoints]
    exact List.mem_map_of_mem _ hr
  have hsa : ((s.year : ℚ), s.adoptionRate) ∈ adoptionPoints df := by
    simp only [adoptionPoints]
    exact List.mem_map_of_mem _ hs
  have hm := fitOLS_normal_eq (marketPoints df) ⟨_, hrm, _, hsm, hrs'⟩
  have ha := fitOLS_normal_eq (adoptionPoints df) ⟨_, hra, _, hsa, hrs'⟩
  have em1 : (marketPoints df).map
      (fun p => p.2 - predictAt (fitOLS (marketPoints df)) p.1)
      = df.map (fun r => r.marketSize
          - predictAt (fitOLS (marketPoints df)) (r.year : ℚ)) := by
    simp [marketPoints, List.map_map]
  have em2 : (marketPoints df).map
      (fun p => p.1 * (p.2 - predictAt (fitOLS (marketPoints df)) p.1))
      = df.map (fun r => (r.year : ℚ) * (r.marketSize
          - predictAt (fitOLS (marketPoints df)) (r.year : ℚ))) := by
    simp [marketPoints, List.map_map]
  have ea1 : (adoptionPoints df).map
      (fun p => p.2 - predictAt (fitOLS (adoptionPoints df)) p.1)
      = df.map (fun r => r.adoptionRate
          - predictAt (fitOLS (adoptionPoints df)) (r.year : ℚ)) := by
    simp [adoptionPoints, List.map_map]
  have ea2 : (adoptionPoints df).map
      (fun p => p.1 * (p.2 - predictAt (fitOLS (adoptionPoints df)) p.1))
      = df.map (fun r => (r.year : ℚ) * (r.adoptionRate
          - predictAt (fitOLS (adoptionPoints df)) (r.year : ℚ))) := by
    simp [adoptionPoints, List.map_map]
  rw [perform_regression_market, perform_regression_adoption,
    ← em1, ← em2, ← ea1, ← ea2]
  exact ⟨hm, ha⟩

/-- Witness for C3 on the two-row sample dataset. -/
theorem C3_normal_equations_witness :
    (∃ r ∈ sampleTwo, ∃ s ∈ sampleTwo, r.year ≠ s.year) ∧
    (sampleTwo.map (fun r => r.marketSize
        - predictAt (perform_regression sampleTwo).1 (r.year : ℚ))).sum = 0 :=
  ⟨⟨⟨2020, 100, 10⟩, by simp [sampleTwo], ⟨2021, 150, 15⟩, by simp [sampleTwo],
      by decide⟩,
   (C3_normal_equations sampleTwo
      ⟨⟨2020, 100, 10⟩, by simp [sampleTwo], ⟨2021, 150, 15⟩,
        by simp [sampleTwo], by decide⟩).1.1⟩

/-- **C4.** The in-sample coefficient of determination follows the
`R² = 1 − SSres/SStot` formula (`r2_score` in the model), and for every
dataset with at least two distinct years whose observed values lie
exactly on a line in year, the computed R² of both targets is exactly
1. -/
theorem C4_r2_perfect_line (df : List MarketRecord)
    (hx : ∃ r ∈ df, ∃ s ∈ df, r.year ≠ s.year) (m b ma' ba' : ℚ)
    (hm : ∀ r ∈ df, r.marketSize = m * (r.year : ℚ) + b)
    (ha : ∀ r ∈ df, r.adoptionRate = ma' * (r.year : ℚ) + ba') :
    (perform_regression df).2.2.1 = 1 ∧ (perform_regression df).2.2.2 = 1 := by
  obtain ⟨r, hr, s, hs, hrs⟩ := hx
  have hrs' : ((r.year : ℚ)) ≠ ((s.year : ℚ)) := by exact_mod_cast hrs
  have hrm : ((r.year : ℚ), r.marketSize) ∈ marketPoints df := by
    simp only [marketPoints]
    exact List.mem_map_of_mem _ hr
  have hsm : ((s.year : ℚ), s.marketSize) ∈ marketPoints df := by
    simp only [marketPoints]
    exact List.mem_map_of_mem _ hs
  have hra : ((r.year : ℚ), r.adoptionRate) ∈ adoptionPoints df := by
    simp only [adoptionPoints]
    exact List.mem_map_of_mem _ hr
  have hsa : ((s.year : ℚ), s.adoptionRate) ∈ adoptionPoints df := by
    simp only [adoptionPoints]
    exact List.mem_map_of_mem _ hs
  have hfitm : fitOLS (marketPoints df) = ⟨m, b⟩ := by
    refine fitOLS_line _ m b ?_ ⟨_, hrm, _, hsm, hrs'⟩
    intro p hp
    simp only [marketPoints] at hp
    obtain ⟨r', hr', rfl⟩ := List.mem_map.mp hp
    exact hm r' hr'
  have hfita : fitOLS (adoptionPoints df) = ⟨ma', ba'⟩ := by
    refine fitOLS_line _ ma' ba' ?_ ⟨_, hra, _, hsa, hrs'⟩
    intro p hp
    simp only [adoptionPoints] at hp
    obtain ⟨r', hr', rfl⟩ := List.mem_map.mp hp
    exact ha r' hr'
  constructor
  · rw [perform_regression_market_r2, hfitm]
    have hmap : df.map (fun r => predictAt ⟨m, b⟩ (r.year : ℚ))
        = df.map (·.marketSize) := by
      refine List.map_congr_left (fun r' hr' => ?_)
      simp only [predictAt]
      exact (hm r' hr').symm
    rw [hmap]
    exact r2_score_self _
  · rw [perform_regression_adoption_r2, hfita]
    have hmap : df.map (fun r => predictAt ⟨ma', ba'⟩ (r.year : ℚ))
        = df.map (·.adoptionRate) := by
      refine List.map_congr_left (fun r' hr' => ?_)
      simp only [predictAt]
      exact (ha r' hr').symm
    rw [hmap]
    exact r2_score_self _

/-- Witness for C4 on the two-row sample dataset, which lies exactly on
the lines `50*year - 100900` and `5*year - 10090`. -/
theorem C4_r2_perfect_line_witness :
    (∀ r ∈ sampleTwo, r.marketSize = 50 * (r.year : ℚ) + -100900) ∧
    (perform_regression sampleTwo).2.2.1 = 1 ∧
    (perform_regression sampleTwo).2.2.2 = 1 :=
  ⟨by
    intro r hr
    simp only [sampleTwo, List.mem_cons, List.not_mem_nil, or_false] at hr
    rcases hr with rfl | rfl <;> norm_num,
   C4_r2_perfect_line sampleTwo
    ⟨⟨2020, 100, 10⟩, by simp [sampleTwo], ⟨2021, 150, 15⟩,
      by simp [sampleTwo], by decide⟩
    50 (-100900) 5 (-10090)
    (by
      intro r hr
      simp only [sampleTwo, List.mem_cons, List.not_mem_nil, or_false] at hr
      rcases hr with rfl | rfl <;> norm_num)
    (by
      intro r hr
      simp only [sampleTwo, List.mem_cons, List.not_mem_nil, or_false] at hr
      rcases hr with rfl | rfl <;> norm_num)⟩

/-- **C6.** The combined CSV has the fixed six-column header; rows from
the historical dataset have both predicted cells empty and Type
`Historical`; rows from the forecast have both raw cells empty and Type
`Predicted`. -/
theorem C6_csv_row_shape (df_original : List MarketRecord)
    (df_predictions : List ForecastRecord) (market_r2 adoption_r2 : ℚ) :
    csvHeader
      = "Year,MarketSize,AdoptionRate,PredictedMarketSize,PredictedAdoptionRate,Type" ∧
    (save_results df_original df_predictions market_r2 adoption_r2).1
      = historicalRows df_original ++ predictedRows df_predictions ∧
    (∀ row ∈ historicalRows df_original,
      row.predictedMarketSize = none ∧ row.predictedAdoptionRate = none ∧
      row.type = "Historical") ∧
    (∀ row ∈ predictedRows df_predictions,
      row.marketSize = none ∧ row.adoptionRate = none ∧
      row.type = "Predicted") := by
  refine ⟨rfl, rfl, ?_, ?_⟩
  · intro row hrow
    simp only [historicalRows] at hrow
    obtain ⟨r, _, rfl⟩ := List.mem_map.mp hrow
    exact ⟨rfl, rfl, rfl⟩
  · intro row hrow
    simp only [predictedRows] at hrow
    obtain ⟨p, _, rfl⟩ := List.mem_map.mp hrow
    exact ⟨rfl, rfl, rfl⟩

/-- Witness for C6: the header at an empty dataset instance. -/
theorem C6_csv_row_shape_witness :
    csvHeader
      = "Year,MarketSize,AdoptionRate,PredictedMarketSize,PredictedAdoptionRate,Type" :=
  (C6_csv_row_shape [] [] 0 0).1

/-- **C7.** Round-trip: filtering the written combined rows down to
`Type=Historical` and projecting the raw columns reproduces the original
dataset exactly — same years, same market-size and adoption-rate values,
in the same order. -/
theorem C7_historical_roundtrip (df_original : List MarketRecord)
    (df_predictions : List ForecastRecord) :
    ((combinedRows df_original df_predictions).filter
        (fun row => row.type == "Historical")).map
        (fun row => (row.year, row.marketSize, row.adoptionRate))
      = df_original.map
          (fun r => (r.year, some r.marketSize, some r.adoptionRate)) := by
  unfold combinedRows
  rw [List.filter_append]
  have h1 : (historicalRows df_original).filter
      (fun row => row.type == "Historical") = historicalRows df_original := by
    refine List.filter_eq_self.mpr ?_
    intro row hrow
    simp only [historicalRows] at hrow
    obtain ⟨r, _, rfl⟩ := List.mem_map.mp hrow
    rfl
  have h2 : (predictedRows df_predictions).filter
      (fun row => row.type == "Historical") = [] := by
    rw [List.filter_eq_nil_iff]
    intro row hrow
    simp only [predictedRows] at hrow
    obtain ⟨p, _, rfl⟩ := List.mem_map.mp hrow
    show ¬ ("Predicted" == "Historical") = true
    decide
  rw [h1, h2, List.append_nil]
  simp [historicalRows, List.map_map]

/-- **C10.** The merged output keeps all `n` historical rows first in
their original order, followed by the `N` forecast rows in strictly
increasing year order, `n + N` rows in total; the JSON report's
`historical_data` and `predictions` arrays preserve the same orders and
lengths. -/
theorem C10_merged_order (df : List MarketRecord) (mm ma' : TrendModel)
    (A : ℤ) (N : ℕ) (market_r2 adoption_r2 : ℚ) :
    let preds := generate_future_predictions mm ma' A N
    let rows := (save_results df preds market_r2 adoption_r2).1
    let report := (save_results df preds market_r2 adoption_r2).2
    rows.length = df.length + N ∧
    rows.take df.length = historicalRows df ∧
    rows.drop df.length = predictedRows preds ∧
    ((rows.drop df.length).map CombinedRow.year).Pairwise (· < ·) ∧
    report.historical_data.map HistEntry.year = df.map MarketRecord.year ∧
    report.historical_data.length = df.length ∧
    report.predictions.map PredEntry.year = preds.map ForecastRecord.year ∧
    report.predictions.length = N := by
  intro preds rows report
  have hrows : rows = historicalRows df ++ predictedRows preds := rfl
  have htake : rows.take df.length = historicalRows df := by
    rw [hrows, ← historicalRows_length df, List.take_left]
  have hdrop : rows.drop df.length = predictedRows preds := by
    rw [hrows, ← historicalRows_length df, List.drop_left]
  have hpredyears : (predictedRows preds).map CombinedRow.year
      = preds.map ForecastRecord.year := by
    simp [predictedRows, List.map_map]
  refine ⟨?_, htake, hdrop, ?_, ?_, ?_, ?_, ?_⟩
  · rw [hrows]
    simp [preds]
  · rw [hdrop, hpredyears]
    exact generate_future_predictions_years_pairwise mm ma' A N
  · simp [report, save_results, List.map_map]
  · simp [report, save_results]
  · simp [report, save_results, List.map_map]
  · simp [report, save_results, preds]

/-- A dataset whose last historical year (2030) lies beyond the
hardcoded base year 2024. -/
def lateDataset : List MarketRecord := [⟨2030, 1, 1⟩]

/-- **C1 (counterexample).** "For every input dataset the minimum
forecast year exceeds the maximum historical year" is false: the
forecaster is anchored at the fixed base year 2024, so a dataset
containing year 2030 still gets forecasts for 2025–2029. -/
theorem C1_counterexample :
    ¬ ∀ (df : List MarketRecord), ∀ r ∈ df, ∀ p ∈ pipelinePredictions df,
        r.year < p.year := by
  intro h
  have hpred : pipelinePredictions lateDataset
      = [⟨2025, 1, 1⟩, ⟨2026, 1, 1⟩, ⟨2027, 1, 1⟩, ⟨2028, 1, 1⟩,
         ⟨2029, 1, 1⟩] := by
    norm_num [pipelinePredictions, generate_future_predictions,
      perform_regression, marketPoints, adoptionPoints, fitOLS, sumX, sumY,
      sumXX, sumXY, predictAt, List.range_succ, lateDataset]
  have h1 := h lateDataset ⟨2030, 1, 1⟩ (by simp [lateDataset]) ⟨2025, 1, 1⟩
    (by rw [hpred]; simp)
  exact absurd h1 (by decide)

/-- **C1 (amended).** For every dataset whose years do not exceed the
hardcoded base year 2024, every forecast year produced by the pipeline
strictly exceeds every historical year (in particular the maximum
one). -/
theorem C1_forecast_after_history (df : List MarketRecord)
    (hle : ∀ r ∈ df, r.year ≤ 2024) :
    ∀ r ∈ df, ∀ p ∈ pipelinePredictions df, r.year < p.year := by
  intro r hr p hp
  simp only [pipelinePredictions, generate_future_predictions, List.mem_map,
    List.mem_range] at hp
  obtain ⟨i, _, rfl⟩ := hp
  have hr24 := hle r hr
  show r.year < 2024 + 1 + (i : ℤ)
  omega

/-- Witness for C1 (amended) on the two-row sample dataset, which ends
in 2021. -/
theorem C1_forecast_after_history_witness :
    (∀ r ∈ sampleTwo, r.year ≤ 2024) ∧
    (∀ r ∈ sampleTwo, ∀ p ∈ pipelinePredictions sampleTwo, r.year < p.year) :=
  ⟨by decide, C1_forecast_after_history sampleTwo (by decide)⟩

/-- The concrete three-row scenario dataset from the spec:
`[(2020,100,10), (2021,150,15), (2022,200,20)]`. -/
def sampleThree : List MarketRecord :=
  [⟨2020, 100, 10⟩, ⟨2021, 150, 15⟩, ⟨2022, 200, 20⟩]

/-- **C8 (counterexample).** On the scenario dataset the fitted
market-size intercept is exactly −100900, not approximately −100850: it
differs from the claimed value by 50, far beyond numeric tolerance. -/
theorem C8_counterexample :
    (perform_regression sampleThree).1.intercept = -100900 ∧
    ¬ |(perform_regression sampleThree).1.intercept - (-100850)| ≤ 1 := by
  have hin : (perform_regression sampleThree).1.intercept = -100900 := by
    norm_num [perform_regression, marketPoints, adoptionPoints, fitOLS,
      sampleThree, sumX, sumY, sumXX, sumXY, r2_score, predictAt]
  refine ⟨hin, ?_⟩
  rw [hin]
  norm_num

/-- **C8 (amended).** On the scenario dataset the fitted market model
has slope exactly 50 and intercept exactly −100900, and the fitted line
evaluated at year 2023 gives predicted market size exactly 250. -/
theorem C8_scenario :
    (perform_regression sampleThree).1.slope = 50 ∧
    (perform_regression sampleThree).1.intercept = -100900 ∧
    predictAt (perform_regression sampleThree).1 2023 = 250 := by
  norm_num [perform_regression, marketPoints, adoptionPoints, fitOLS,
    sampleThree, sumX, sumY, sumXX, sumXY, r2_score, predictAt]
